import Mathlib

/-!
Shallow embedding of the `fdb` friend-record HTTP service (src/src/main.rs,
src/src/models.rs) and proofs about its specified behaviour.

The store, its schema and the migration scripts (`schema.rs`, `migrations/`)
are not part of the sources; where their behaviour decides a property they
are modelled from the spec, and the corresponding definitions say so in
their doc comments.
-/

namespace Fdb

/-- Persisted entity, mirroring `struct Friend { id: i32, name: String, email: String }`
in src/src/models.rs. -/
structure Friend where
  id : Int
  name : String
  email : String
deriving DecidableEq, Repr

/-- Getter mirroring `impl Friend { pub fn id(&self) -> i32 }`. -/
def Friend.getId (f : Friend) : Int := f.id

/-- Creation payload, mirroring `struct NewFriend { name: String, email: String }`
in src/src/models.rs. -/
structure NewFriend where
  name : String
  email : String
deriving DecidableEq, Repr

/-- Form payload of the creation handler, mirroring
`struct CreateFriend { name: String, email: String }` in src/src/main.rs. -/
structure CreateFriend where
  name : String
  email : String
deriving DecidableEq, Repr

/-- Modelled from the spec: the friends table of the SQLite store.  The table
definition lives in `schema.rs` and `migrations/`, which are absent from the
sources; the spec describes a single table of Friend rows whose integer
primary key is store-assigned, unique and immutable.  `rows` is the table
content in store order and `nextId` the next fresh primary-key value (every
existing row's id is below it). -/
structure Db where
  rows : List Friend
  nextId : Int
deriving DecidableEq, Repr

/-- Well-formedness of the store: every persisted id is below the next fresh
id, so a freshly assigned id never collides with an existing row. -/
def Db.wf (db : Db) : Bool := db.rows.all (fun f => f.id < db.nextId)

/-- The empty store with fresh ids starting at 1, as SQLite assigns rowids. -/
def emptyDb : Db := ⟨[], 1⟩

/-- Repository operation `get_by_id` as the handlers execute it:
`friends.find(id).select(Friend::as_select()).first(conn)`, i.e. the first
row whose primary key matches, `none` for zero rows. -/
def get_by_id (db : Db) (id : Int) : Option Friend :=
  db.rows.find? (fun f => f.id == id)

/-- Repository operation `list_all` as `view_all_friends` executes it:
`friends::table.select(Friend::as_select()).load(conn)`, i.e. every row in
store order. -/
def list_all (db : Db) : List Friend := db.rows

/-- Modelled from the spec: repository operation `insert`, as executed by
`diesel::insert_into(schema::friends::table).values(json).returning(Friend::as_returning()).get_result(conn)`.
The id assignment is the store's (the schema is absent from the sources); per
the spec the store assigns a fresh, never-reused id and returns the full
persisted record. -/
def insert (db : Db) (nf : NewFriend) : Friend × Db :=
  let f : Friend := ⟨db.nextId, nf.name, nf.email⟩
  (f, ⟨db.rows ++ [f], db.nextId + 1⟩)

/-- The database work of `add_friend_to_db` in src/src/main.rs: the insert
executed inside `conn.interact`. -/
def add_friend_to_db (db : Db) (json : NewFriend) : Friend × Db :=
  insert db json

/-- `fn internal_error<E>(err: E) -> (StatusCode, String)` from src/src/main.rs:
every error value is mapped to status 500 with its textual description. -/
def internal_error (err : String) : Nat × String :=
  (500, err)

/-- Outcome of a read handler.  `ok` carries the JSON-serialised value,
`err` a `(StatusCode, String)` error response, and `panic` models the handler
task panicking (an `unwrap()` on an `Err` outside any `interact` closure),
which yields no response at all for that request. -/
inductive HandlerResult (α : Type) where
  | ok (val : α)
  | err (status : Nat) (msg : String)
  | panic (msg : String)
deriving DecidableEq, Repr

/-- Result of acquiring a connection from the deadpool pool: `ok` hands the
caller the (single, shared) store, `error` is a pool-level failure such as
timeout or closed pool. -/
abbrev PoolGet := Except String Unit

/-- Message of the `deadpool_diesel::InteractError::Panic` value produced
when the closure passed to `conn.interact` panics; the panic is caught by
the blocking-task wrapper, not propagated to the handler task. -/
def interactPanicMsg : String := "panic in interact closure"

/-- Handler `view_friend` from src/src/main.rs.  `pool.get().await.unwrap()`
panics the handler task on a pool error.  Inside `interact`, a matching row
is returned; zero rows make `.first(conn).unwrap()` panic, which `interact`
catches and surfaces as `InteractError::Panic`, and `map_err(internal_error)`
turns that into a 500 response. -/
def view_friend (poolGet : PoolGet) (db : Db) (id : Int) : HandlerResult Friend :=
  match poolGet with
  | .error e => .panic e
  | .ok _ =>
    match get_by_id db id with
    | some f => .ok f
    | none =>
      let (s, m) := internal_error interactPanicMsg
      .err s m

/-- Handler `view_all_friends` from src/src/main.rs.  `pool.get().await.unwrap()`
panics the handler task on a pool error; otherwise `load` returns every row
(an empty list on an empty table) and the handler answers 200 with the JSON
array. -/
def view_all_friends (poolGet : PoolGet) (db : Db) : HandlerResult (List Friend) :=
  match poolGet with
  | .error e => .panic e
  | .ok _ => .ok (list_all db)

/-- Outcome of the creation handler `create_friend`.  `redirect` carries the
target path (the success response carries no record body), `err` a
`(StatusCode, String)` response, and `undef` the value of `res.id()` on the
code path where `res` was never assigned — rustc rejects the source for
exactly this possibly-uninitialized use, so that path has no defined
behaviour. -/
inductive CreateResult where
  | redirect (target : String)
  | err (status : Nat) (msg : String)
  | undef
deriving DecidableEq, Repr

/-- Handler `create_friend` from src/src/main.rs, lines 64-82.  The
extracted bodies are passed as the code's `if let` chain reads them: an
optional JSON-decoded `NewFriend` and an optional form-decoded
`CreateFriend`.  `pool.get().await.map_err(internal_error)?` maps a pool
error to a 500 response.  The JSON branch runs `add_friend_to_db` and
assigns `res`; the form branch constructs `NewFriend { name, email }` and
immediately discards it, inserting nothing and leaving `res` unassigned, so
the final `res.id()` is undefined there (the source does not compile). -/
def create_friend (poolGet : PoolGet) (db : Db)
    (new_friend_json : Option NewFriend) (new_friend_form : Option CreateFriend) :
    CreateResult × Db :=
  match poolGet with
  | .error e =>
    let (s, m) := internal_error e
    (.err s m, db)
  | .ok _ =>
    match new_friend_json with
    | some nf =>
      let (f, db2) := add_friend_to_db db nf
      (.redirect ("/friends/" ++ toString f.getId), db2)
    | none =>
      match new_friend_form with
      | some form =>
        let name := form.name
        let email := form.email
        let _discarded : NewFriend := ⟨name, email⟩
        (.undef, db)
      | none => (.undef, db)

/-- JSON values, as far as the creation payload needs them. -/
inductive JsonValue where
  | str (s : String)
  | num (n : Int)
  | bool (b : Bool)
  | null
  | arr (elems : List JsonValue)
  | obj (fields : List (String × JsonValue))

/-- Field lookup with serde's semantics for a derived struct field of type
`String`: the field must occur exactly once (a duplicate key is a
deserialization error) and its value must be a JSON string. -/
def getStrField (fields : List (String × JsonValue)) (key : String) : Option String :=
  match fields.filter (fun kv => kv.1 == key) with
  | [(_, .str s)] => some s
  | _ => none

/-- Deserializer derived for `NewFriend` by `#[derive(Deserialize)]`: the
body must be a JSON object with string fields `name` and `email`; unknown
fields are ignored, a missing field, a non-string value or a non-object body
is an error. -/
def NewFriend.deserialize : JsonValue → Option NewFriend
  | .obj fields =>
    match getStrField fields "name", getStrField fields "email" with
    | some n, some e => some ⟨n, e⟩
    | _, _ => none
  | _ => none

/-- Response of the routing layer for `POST /friends/new`: either the
handler ran and produced a `CreateResult`, or the `Json<NewFriend>`
extractor rejected the request before the handler body ran. -/
inductive RouteResult where
  | handled (res : CreateResult)
  | rejected (status : Nat)
deriving DecidableEq, Repr

/-- Routing of a JSON-bodied `POST /friends/new` request through axum: the
`Json<NewFriend>` extractor in `create_friend`'s signature runs before the
handler body, so a body that fails `NewFriend` deserialization is rejected
with a 422 and the handler never runs — the returned flag records whether
`pool.get()` was ever invoked, and the store is returned unchanged on
rejection. -/
def route_create_json (poolGet : PoolGet) (db : Db) (body : JsonValue) :
    RouteResult × Db × Bool :=
  match NewFriend.deserialize body with
  | none => (.rejected 422, db, false)
  | some nf =>
    let (res, db2) := create_friend poolGet db (some nf) none
    (.handled res, db2, true)

/-- Steps of `main` in src/src/main.rs, in source order: read
`DATABASE_URL` (after the ignored `dotenvy::dotenv()`), build the deadpool
pool, run the pending migrations on a pooled connection, bind the TCP
listener on 0.0.0.0:3030, and serve requests. -/
inductive StartupStep where
  | loadEnv
  | openPool
  | runMigrations
  | bindSocket
  | serve
deriving DecidableEq, Repr

/-- Trace of the steps `main` executes, given whether each fallible step
succeeds.  Every step's result is `unwrap()`ed in the source, so the first
failure panics `main` and the trace stops at the failing step; the process
never reaches the later steps. -/
def mainTrace (envVar : Option String) (poolOk migOk bindOk : Bool) :
    List StartupStep :=
  match envVar with
  | none => [.loadEnv]
  | some _ =>
    if !poolOk then [.loadEnv, .openPool]
    else if !migOk then [.loadEnv, .openPool, .runMigrations]
    else if !bindOk then [.loadEnv, .openPool, .runMigrations, .bindSocket]
    else [.loadEnv, .openPool, .runMigrations, .bindSocket, .serve]

/-- Modelled from the spec: the store as the Migration Runner sees it.  The
runner (`diesel_migrations`) and the migration scripts (`migrations/`) are
absent from the sources; per the spec the store keeps a persisted
migration-history record of the identifiers already applied, alongside the
schema changes performed. -/
structure MigStore where
  history : List Nat
  schemaOps : List Nat
deriving DecidableEq, Repr

/-- Modelled from the spec: `run_pending_migrations(MIGRATIONS)` applies the
embedded migrations in their fixed order, skipping every identifier already
in the persisted history (applying an already-applied migration is a no-op)
and recording each newly applied one. -/
def run_pending_migrations (migrations : List Nat) (s : MigStore) : MigStore :=
  migrations.foldl
    (fun st m =>
      if m ∈ st.history then st
      else ⟨st.history ++ [m], st.schemaOps ++ [m]⟩)
    s

/-- Sequential inserts: each request performs one `insert` on the store the
previous one left behind; the list of returned Friends is collected in
order. -/
def insertMany (db : Db) (nfs : List NewFriend) : List Friend × Db :=
  match nfs with
  | [] => ([], db)
  | nf :: rest =>
    let (f, db2) := insert db nf
    let (fs, db3) := insertMany db2 rest
    (f :: fs, db3)

/-- Predicate picking out the Internal-Fault responses: exactly the
`(StatusCode::INTERNAL_SERVER_ERROR, message)` pairs that `internal_error`
produces. -/
def isInternalFault {α : Type} : HandlerResult α → Bool
  | .err 500 _ => true
  | _ => false

end Fdb

namespace Fdb

theorem get_by_id_append_new (rows : List Friend) (nid : Int) (nm em : String)
    (h : ∀ f ∈ rows, f.id < nid) :
    get_by_id ⟨rows ++ [⟨nid, nm, em⟩], nid + 1⟩ nid = some ⟨nid, nm, em⟩ := by
  unfold get_by_id
  simp only [List.find?_append]
  have hnone : rows.find? (fun f => f.id == nid) = none := by
    rw [List.find?_eq_none]
    intro f hf
    simp only [beq_iff_eq]
    exact Int.ne_of_lt (h f hf)
  rw [hnone]
  simp [List.find?]

theorem insertMany_id_lower_bound (nfs : List NewFriend) (db : Db) (f : Friend)
    (hf : f ∈ (insertMany db nfs).1) : db.nextId ≤ f.id := by
  induction nfs generalizing db with
  | nil => simp [insertMany] at hf
  | cons nf rest ih =>
    simp only [insertMany, insert] at hf
    rcases List.mem_cons.mp hf with h | h
    · subst h; exact le_refl _
    · have := ih ⟨db.rows ++ [⟨db.nextId, nf.name, nf.email⟩], db.nextId + 1⟩ h
      simp only at this
      omega

theorem insertMany_rows (nfs : List NewFriend) (db : Db) :
    (insertMany db nfs).2.rows = db.rows ++ (insertMany db nfs).1 := by
  induction nfs generalizing db with
  | nil => simp [insertMany]
  | cons nf rest ih =>
    simp only [insertMany, insert]
    rw [ih]
    simp

/-- C7: when the friends table is empty, `view_all_friends` (GET /friends/all)
returns the successful 200 outcome carrying the empty JSON array, not an
error, whatever the fresh-id counter is. -/
theorem view_all_friends_empty_table (nextId : Int) :
    view_all_friends (Except.ok ()) ⟨[], nextId⟩ = HandlerResult.ok [] := rfl

/-- C3: on a well-formed store, `insert` followed by `get_by_id` at the
returned id yields exactly the returned Friend, whose name and email are the
inserted values (and whose id is the returned id by construction). -/
theorem insert_get_by_id_roundtrip (db : Db) (nf : NewFriend) (hwf : db.wf = true) :
    get_by_id (insert db nf).2 (insert db nf).1.id = some (insert db nf).1 ∧
    (insert db nf).1.name = nf.name ∧ (insert db nf).1.email = nf.email := by
  have h : ∀ f ∈ db.rows, f.id < db.nextId := by
    unfold Db.wf at hwf
    simp only [List.all_eq_true, decide_eq_true_eq] at hwf
    exact hwf
  refine ⟨?_, rfl, rfl⟩
  simpa [insert] using get_by_id_append_new db.rows db.nextId nf.name nf.email h

/-- Witness for C3 at the empty store and a concrete payload. -/
theorem insert_get_by_id_roundtrip_witness :
    get_by_id (insert emptyDb ⟨"Ann", "a@x.com"⟩).2 (insert emptyDb ⟨"Ann", "a@x.com"⟩).1.id =
      some (insert emptyDb ⟨"Ann", "a@x.com"⟩).1 ∧
    (insert emptyDb ⟨"Ann", "a@x.com"⟩).1.name = "Ann" ∧
    (insert emptyDb ⟨"Ann", "a@x.com"⟩).1.email = "a@x.com" :=
  insert_get_by_id_roundtrip emptyDb ⟨"Ann", "a@x.com"⟩ rfl

/-- C9: the ids returned by any sequence of sequential inserts are pairwise
distinct, and inserts only append — every previously persisted row is left
untouched, so an id is never reused or mutated after assignment. -/
theorem insertMany_ids_nodup (db : Db) (nfs : List NewFriend) :
    ((insertMany db nfs).1.map Friend.id).Nodup ∧
    (insertMany db nfs).2.rows = db.rows ++ (insertMany db nfs).1 := by
  refine ⟨?_, insertMany_rows nfs db⟩
  induction nfs generalizing db with
  | nil => simp [insertMany]
  | cons nf rest ih =>
    simp only [insertMany, insert, List.map_cons]
    rw [List.nodup_cons]
    refine ⟨?_, ih _⟩
    intro hmem
    rcases List.mem_map.mp hmem with ⟨g, hg, hid⟩
    have hlb := insertMany_id_lower_bound rest
      ⟨db.rows ++ [⟨db.nextId, nf.name, nf.email⟩], db.nextId + 1⟩ g hg
    simp only [Friend.id] at hid hlb ⊢
    omega

/-- C4: `serve` is reached only when every startup step succeeded, and then
the executed trace is exactly load environment, open pool, run migrations,
bind socket, serve, in that order — so no request is accepted before all
pending migrations have been applied; contrapositively, any failing step
leaves `serve` (and everything after the failing step) out of the trace. -/
theorem mainTrace_startup_order (envVar : Option String) (poolOk migOk bindOk : Bool)
    (h : StartupStep.serve ∈ mainTrace envVar poolOk migOk bindOk) :
    mainTrace envVar poolOk migOk bindOk =
      [.loadEnv, .openPool, .runMigrations, .bindSocket, .serve] ∧
    envVar ≠ none ∧ poolOk = true ∧ migOk = true ∧ bindOk = true := by
  rcases envVar with _ | s <;>
    cases poolOk <;> cases migOk <;> cases bindOk <;>
    simp_all [mainTrace]

/-- Witness for C4 at a concrete successful startup. -/
theorem mainTrace_startup_order_witness :
    mainTrace (some "friends.sqlite") true true true =
      [.loadEnv, .openPool, .runMigrations, .bindSocket, .serve] ∧
    (some "friends.sqlite" : Option String) ≠ none ∧
    true = true ∧ true = true ∧ true = true :=
  mainTrace_startup_order (some "friends.sqlite") true true true (by simp [mainTrace])

theorem run_pending_migrations_history_mono (migs : List Nat) (s : MigStore) (m : Nat)
    (h : m ∈ s.history) : m ∈ (run_pending_migrations migs s).history := by
  induction migs generalizing s with
  | nil => exact h
  | cons a rest ih =>
    simp only [run_pending_migrations, List.foldl_cons]
    by_cases ha : a ∈ s.history
    · simp only [ha, if_pos]
      exact ih s h
    · simp only [ha, if_neg, not_false_iff]
      exact ih _ (by simp [h])

theorem run_pending_migrations_all_applied (migs : List Nat) (s : MigStore) :
    ∀ m ∈ migs, m ∈ (run_pending_migrations migs s).history := by
  induction migs generalizing s with
  | nil => intro m hm; simp at hm
  | cons a rest ih =>
    intro m hm
    simp only [run_pending_migrations, List.foldl_cons]
    rcases List.mem_cons.mp hm with h | h
    · subst h
      by_cases ha : m ∈ s.history
      · simp only [ha, if_pos]
        exact run_pending_migrations_history_mono rest s m ha
      · simp only [ha, if_neg, not_false_iff]
        exact run_pending_migrations_history_mono rest _ m (by simp)
    · by_cases ha : a ∈ s.history
      · simp only [ha, if_pos]
        exact ih s m h
      · simp only [ha, if_neg, not_false_iff]
        exact ih _ m h

theorem run_pending_migrations_of_applied (migs : List Nat) (s : MigStore)
    (h : ∀ m ∈ migs, m ∈ s.history) : run_pending_migrations migs s = s := by
  induction migs generalizing s with
  | nil => rfl
  | cons a rest ih =>
    have ha : a ∈ s.history := h a (List.mem_cons_self a rest)
    simp only [run_pending_migrations, List.foldl_cons, ha, if_pos]
    exact ih s (fun m hm => h m (List.mem_cons_of_mem a hm))

/-- C5: running the migration runner a second time over any store is a
no-op — the history and the performed schema changes are exactly those of
the first run, and the runner signals no error (it is total): applying an
already-applied migration does nothing, tracked through the persisted
history. -/
theorem run_pending_migrations_idempotent (migs : List Nat) (s : MigStore) :
    run_pending_migrations migs (run_pending_migrations migs s) =
      run_pending_migrations migs s :=
  run_pending_migrations_of_applied migs _
    (run_pending_migrations_all_applied migs s)

/-- C8: on the successful creation path (pool acquired, JSON body decoded)
the handler's response is a redirect — carrying only the target path, not
the record body — whose target is `/friends/{new_id}` for the store-assigned
id of the record just inserted, which is exactly the row appended to the
store. -/
theorem create_friend_redirects_to_new_id (db : Db) (nf : NewFriend)
    (form : Option CreateFriend) :
    (create_friend (Except.ok ()) db (some nf) form).1 =
      CreateResult.redirect ("/friends/" ++ toString (add_friend_to_db db nf).1.getId) ∧
    (create_friend (Except.ok ()) db (some nf) form).2.rows =
      db.rows ++ [(add_friend_to_db db nf).1] ∧
    get_by_id (create_friend (Except.ok ()) db (some nf) form).2
        (add_friend_to_db db nf).1.getId =
      get_by_id (add_friend_to_db db nf).2 (add_friend_to_db db nf).1.getId := by
  refine ⟨rfl, ?_, rfl⟩
  simp [create_friend, add_friend_to_db, insert]

/-- C2 counterexample: id 1 was never inserted into the empty store, yet
`view_friend` answers with the very `(500, message)` shape `internal_error`
gives every internal fault — the not-found row makes `first(conn).unwrap()`
panic inside `interact` and the caught panic is mapped by
`map_err(internal_error)`, so the outcome is not distinct from an
Internal-Fault outcome. -/
theorem view_friend_notfound_is_internal_fault :
    get_by_id emptyDb 1 = none ∧
    view_friend (Except.ok ()) emptyDb 1 = HandlerResult.err 500 interactPanicMsg ∧
    isInternalFault (view_friend (Except.ok ()) emptyDb 1) = true :=
  ⟨rfl, rfl, rfl⟩

/-- C2 (amended): for an id with no matching row, `view_friend` surfaces an
error response — the serving task is not crashed — but that response is the
500 internal-fault mapping of the caught interact panic, not a distinct
Not-Found outcome. -/
theorem view_friend_notfound_amended (db : Db) (id : Int)
    (h : get_by_id db id = none) :
    view_friend (Except.ok ()) db id = HandlerResult.err 500 interactPanicMsg ∧
    ∀ msg, view_friend (Except.ok ()) db id ≠ HandlerResult.panic msg := by
  have hv : view_friend (Except.ok ()) db id = HandlerResult.err 500 interactPanicMsg := by
    simp [view_friend, h, internal_error]
  exact ⟨hv, fun msg => by rw [hv]; intro hc; cases hc⟩

/-- Witness for the amended C2 at the empty store and id 1. -/
theorem view_friend_notfound_amended_witness :
    view_friend (Except.ok ()) emptyDb 1 = HandlerResult.err 500 interactPanicMsg ∧
    ∀ msg, view_friend (Except.ok ()) emptyDb 1 ≠ HandlerResult.panic msg :=
  view_friend_notfound_amended emptyDb 1 rfl

/-- C6 counterexample: a pool-acquisition error in `view_friend` is not
mapped to a 500 internal-error response — `pool.get().await.unwrap()` panics
the handler task instead, so the request produces no response at all. -/
theorem view_friend_pool_error_panics :
    view_friend (Except.error "pool timed out") emptyDb 1 =
      HandlerResult.panic "pool timed out" ∧
    isInternalFault (view_friend (Except.error "pool timed out") emptyDb 1) = false :=
  ⟨rfl, rfl⟩

/-- C6 (amended): only `create_friend` maps a pool-acquisition error to a
500 internal-error response confined to that request (the store is left
unchanged); `view_friend` and `view_all_friends` unwrap the pool result, so
the same error panics that handler's task instead of producing a 500. -/
theorem pool_error_handling_amended (e : String) (db : Db) (id : Int)
    (json : Option NewFriend) (form : Option CreateFriend) :
    create_friend (Except.error e) db json form = (CreateResult.err 500 e, db) ∧
    view_friend (Except.error e) db id = HandlerResult.panic e ∧
    view_all_friends (Except.error e) db = HandlerResult.panic e :=
  ⟨rfl, rfl, rfl⟩

/-- C1 failing input: a form-encoded creation request (name=Ann, email=a@x.com)
reaches the form branch, which discards the constructed `NewFriend` without
calling insert — the store is unchanged and the response reads the
unassigned `res` — while the same payload as a JSON body does persist the
record. -/
theorem create_friend_form_branch_inserts_nothing :
    create_friend (Except.ok ()) emptyDb none (some ⟨"Ann", "a@x.com"⟩) =
      (CreateResult.undef, emptyDb) ∧
    (create_friend (Except.ok ()) emptyDb (some ⟨"Ann", "a@x.com"⟩) none).2.rows =
      [⟨1, "Ann", "a@x.com"⟩] :=
  ⟨rfl, rfl⟩

/-- C10: a JSON body that is an object lacking a usable string `name` field
or a usable string `email` field fails the derived `NewFriend`
deserialization, so the `Json<NewFriend>` extractor rejects the request
before the handler body runs: the pool is never touched, no insert happens
and the store is returned unchanged. -/
theorem route_create_json_rejects_bad_body (poolGet : PoolGet) (db : Db)
    (fields : List (String × JsonValue))
    (h : getStrField fields "name" = none ∨ getStrField fields "email" = none) :
    NewFriend.deserialize (JsonValue.obj fields) = none ∧
    route_create_json poolGet db (JsonValue.obj fields) =
      (RouteResult.rejected 422, db, false) := by
  have hd : NewFriend.deserialize (JsonValue.obj fields) = none := by
    rcases h with h | h
    · rcases he : getStrField fields "email" with _ | e <;>
        simp [NewFriend.deserialize, h, he]
    · rcases hn : getStrField fields "name" with _ | n <;>
        simp [NewFriend.deserialize, h, hn]
  refine ⟨hd, ?_⟩
  simp [route_create_json, hd]

/-- Witness for C10 at a body that has a `name` field but no `email`
field. -/
theorem route_create_json_rejects_bad_body_witness :
    NewFriend.deserialize (JsonValue.obj [("name", JsonValue.str "Ann")]) = none ∧
    route_create_json (Except.ok ()) emptyDb (JsonValue.obj [("name", JsonValue.str "Ann")]) =
      (RouteResult.rejected 422, emptyDb, false) :=
  route_create_json_rejects_bad_body (Except.ok ()) emptyDb
    [("name", JsonValue.str "Ann")] (Or.inr (by decide))

end Fdb